import Mathlib

/-!
Verification of the order-processing backend (Express + Mongoose storefront
server): order creation with transactional stock reservation, pricing,
payment verification, cancellation, shipping rate quotes, tracking-status
normalization and the provider authentication cache.

The Lean definitions are a shallow embedding of the JavaScript source:

* JavaScript `Number` arithmetic on money is modelled as exact rational
  arithmetic (`ℚ`); stock counters and quantities are modelled as integers
  (`ℤ`), matching the schema's integral stock counts.
* Mongoose documents become Lean structures; the MongoDB transaction
  (`session.withTransaction`) is modelled as all-or-nothing: when the
  transaction body throws, the product store reverts to its
  pre-transaction value and the error surfaces to the route handler.
* Fields irrelevant to the verified claims (image galleries, logistics
  weight accumulation, timestamps other than the ones the claims mention)
  are omitted from the structures.
-/

namespace OrderServer

/-- JavaScript `a || b` on strings: the empty string is falsy. -/
def jsStrOr (a b : String) : String := if a = "" then b else a

/-- JavaScript `a || b` on numeric fields: `0`, `null` and `undefined` are
falsy, so an absent or zero value falls through to the default. -/
def jsNumOr (x : Option ℚ) (d : ℚ) : ℚ :=
  match x with
  | some v => if v = 0 then d else v
  | none => d

/-- JavaScript truthiness of an optional string (`undefined` and `""` are falsy). -/
def jsStrTruthy (x : Option String) : Option String :=
  match x with
  | some s => if s = "" then none else some s
  | none => none

/-- `String.prototype.toLowerCase()` for the ASCII strings the routes compare
(size labels, carrier statuses). -/
def jsToLower (s : String) : String :=
  String.mk (s.data.map Char.toLower)

/-- An ASCII whitespace character (the JS `trim` class, restricted to ASCII). -/
def isWsChar (c : Char) : Bool :=
  c == ' ' || c == '\t' || c == '\n' || c == '\r'

/-- `String.prototype.trim()` for ASCII strings. -/
def jsTrim (s : String) : String :=
  String.mk (((s.data.dropWhile isWsChar).reverse.dropWhile isWsChar).reverse)

/-- An entry of `Product.sizes` (src/unnamed/part_003, `sizeSchema`). -/
structure SizeEntry where
  size : String
  stock : ℤ
deriving DecidableEq

/-- The stock-bearing part of a Product document (src/unnamed/part_003,
`productSchema`). -/
structure Product where
  name : String
  price : ℚ
  stock : ℤ
  sizes : List SizeEntry
  inStock : Bool
deriving DecidableEq

/-- The persistent product collection, keyed by product id. -/
abbrev Store := List (String × Product)

/-- `Product.findById(item.product).session(session)`. -/
def lookupProduct (store : Store) (pid : String) : Option Product :=
  (store.find? (fun pr => pr.1 == pid)).map (fun pr => pr.2)

/-- `product.save({ session })`: write the mutated document back. -/
def updateProduct (store : Store) (pid : String) (p : Product) : Store :=
  store.map (fun pr => if pr.1 == pid then (pr.1, p) else pr)

/-- `product.sizes.reduce((sum, e) => sum + (typeof e.stock === 'number' ? e.stock : 0), 0)`. -/
def sizeStocksSum (sizes : List SizeEntry) : ℤ :=
  sizes.foldl (fun sum e => sum + e.stock) 0

/-- `productSchema.methods.hasAvailableStock` (src/unnamed/part_003):
`baseStock > 0 || sizes.some((entry) => entry.stock > 0)`. -/
def hasAvailableStock (p : Product) : Bool :=
  decide (0 < p.stock) || p.sizes.any (fun e => decide (0 < e.stock))

/-- Case-insensitive size lookup of the reservation loop:
`product.sizes?.find((size) => size.size?.toLowerCase() === item.size.toLowerCase())`. -/
def findSize (sizes : List SizeEntry) (label : String) : Option SizeEntry :=
  sizes.find? (fun e => jsToLower e.size == jsToLower label)

/-- In-place decrement of the matched size entry:
`selectedSizeEntry.stock = Math.max(0, (selectedSizeEntry.stock || 0) - quantity)`;
the first case-insensitive match is the entry `find` returned, hence the
entry that is mutated. -/
def decrementSize (sizes : List SizeEntry) (label : String) (qty : ℤ) : List SizeEntry :=
  match sizes with
  | [] => []
  | e :: rest =>
    if jsToLower e.size == jsToLower label then
      { e with stock := max 0 (e.stock - qty) } :: rest
    else
      e :: decrementSize rest label qty

/-- An error thrown inside a route handler (`message` plus `error.statusCode`). -/
structure JsError where
  message : String
  status : ℕ
deriving DecidableEq

/-- One entry of the incoming `items` array of `POST /api/orders`.
`quantity` models `Number(item.quantity) || 0`. -/
structure ItemReq where
  product : String
  size : Option String
  quantity : ℤ
deriving DecidableEq

/-- One entry of the order's immutable `items` snapshot. -/
structure OrderItem where
  product : String
  name : String
  size : Option String
  quantity : ℤ
  price : ℚ
deriving DecidableEq

/-- One iteration of the stock-reservation loop of `POST /api/orders`
(src/unnamed/part_001, lines 377-488): validate the item, decrement the
matching stock counter, recompute the aggregate stock and the `inStock`
flag, and persist the product - or throw. Image/color selection and
logistics accumulation are omitted (irrelevant to stock and pricing). -/
def processItem (store : Store) (item : ItemReq) : Except JsError (Store × OrderItem) :=
  if item.product = "" then
    .error { message := "Invalid order item", status := 400 }
  else
    match lookupProduct store item.product with
    | none => .error { message := "Product " ++ item.product ++ " not found", status := 404 }
    | some product =>
      if item.quantity ≤ 0 then
        .error { message := "Quantity must be greater than zero", status := 400 }
      else
        let quantity := item.quantity
        let baseStock := product.stock
        let snapshot : OrderItem :=
          { product := item.product, name := product.name, size := item.size,
            quantity := quantity, price := product.price }
        match jsStrTruthy item.size with
        | some label =>
          match findSize product.sizes label with
          | none =>
            .error { message := "Size " ++ label ++ " not available for " ++ product.name,
                     status := 400 }
          | some entry =>
            if entry.stock < quantity then
              .error { message := "Insufficient stock for " ++ product.name ++ " - size " ++ label,
                       status := 409 }
            else
              let sizes' := decrementSize product.sizes label quantity
              let p' : Product :=
                { product with sizes := sizes', stock := max 0 (sizeStocksSum sizes') }
              .ok (updateProduct store item.product { p' with inStock := hasAvailableStock p' },
                   snapshot)
        | none =>
          if product.sizes.isEmpty then
            if baseStock < quantity then
              .error { message := product.name ++ " is out of stock", status := 409 }
            else
              let p' : Product := { product with stock := max 0 (baseStock - quantity) }
              .ok (updateProduct store item.product { p' with inStock := hasAvailableStock p' },
                   snapshot)
          else
            if sizeStocksSum product.sizes < quantity then
              .error { message := product.name ++ " is out of stock", status := 409 }
            else
              let p' : Product := { product with stock := max 0 (sizeStocksSum product.sizes) }
              .ok (updateProduct store item.product { p' with inStock := hasAvailableStock p' },
                   snapshot)

/-- The `for (const item of items)` loop, threading the session's view of the
store and accumulating the items snapshot and `subtotal += itemPrice * quantity`. -/
def processItems (store : Store) (items : List ItemReq) :
    Except JsError (Store × List OrderItem × ℚ) :=
  match items with
  | [] => .ok (store, [], 0)
  | it :: rest =>
    match processItem store it with
    | .error e => .error e
    | .ok (store', oi) =>
      match processItems store' rest with
      | .error e => .error e
      | .ok (store'', ois, sub) =>
        .ok (store'', oi :: ois, oi.price * (oi.quantity : ℚ) + sub)

/-- The claim-relevant fields of an Order document (src/models/Order.js).
`shippingIntegrationStatus` models `shippingIntegration.status` of the
optional shipping sub-record (`none` = no sub-record). -/
structure Order where
  user : String
  items : List OrderItem
  paymentMethod : String
  paymentStatus : String
  orderStatus : String
  razorpayOrderId : String
  razorpayPaymentId : String
  razorpaySignature : String
  subtotal : ℚ
  shipping : ℚ
  tax : ℚ
  total : ℚ
  cancelledByUser : Bool
  cancelledAt : Option ℤ
  cancelReason : String
  shippingIntegrationStatus : Option String
  returnStatus : String
deriving DecidableEq

/-- Payment methods that open a Razorpay order inside the transaction. -/
def onlineMethods : List String := ["razorpay", "upi", "card", "netbanking"]

/-- The body of `session.withTransaction` in `POST /api/orders`
(src/unnamed/part_001, lines 367-539): reserve stock per item, price the
order, optionally open the payment-gateway order (`gw` is the gateway's
response: an external order id, or a failure that is rethrown with
statusCode 502), and save the order. -/
def createOrderTx (store : Store) (userId : String) (items : List ItemReq)
    (paymentMethod : String) (gw : Except String String) :
    Except JsError (Store × Order) :=
  match processItems store items with
  | .error e => .error e
  | .ok (store', orderItems, subtotal) =>
    let shipping : ℚ := if subtotal > 1000 then 0 else 50
    let tax : ℚ := subtotal * (18 / 100)
    let total : ℚ := subtotal + shipping + tax
    let order : Order :=
      { user := userId, items := orderItems, paymentMethod := paymentMethod,
        paymentStatus := "pending", orderStatus := "pending",
        razorpayOrderId := "", razorpayPaymentId := "", razorpaySignature := "",
        subtotal := subtotal, shipping := shipping, tax := tax, total := total,
        cancelledByUser := false, cancelledAt := none, cancelReason := "",
        shippingIntegrationStatus := none, returnStatus := "none" }
    if paymentMethod ∈ onlineMethods then
      match gw with
      | .ok rzpId => .ok (store', { order with razorpayOrderId := rzpId })
      | .error msg => .error { message := msg, status := 502 }
    else
      .ok (store', order)

/-- The `POST /api/orders` route around the transaction: request guards, then
the all-or-nothing transaction. A thrown error aborts the transaction, so the
store reverts to its input value and the error's status becomes the response
status. -/
def createOrderEndpoint (store : Store) (userId : String) (items : List ItemReq)
    (paymentMethod : String) (hasShippingAddress : Bool) (gw : Except String String) :
    Store × Except JsError Order :=
  if items.isEmpty then
    (store, .error { message := "Order must have items", status := 400 })
  else if !hasShippingAddress then
    (store, .error { message := "Shipping address is required", status := 400 })
  else
    match createOrderTx store userId items paymentMethod gw with
    | .ok (store', o) => (store', .ok o)
    | .error e => (store, .error e)

/-- A rate quote as returned by `ShiprocketService.getRateQuote`
(src/routes/users.js, lines 212-292). The `etd` date is omitted. -/
structure Quote where
  courierCompanyId : Option ℤ
  courierName : String
  charge : ℚ
  codCharge : ℚ
  freightCharge : ℚ
  fuelSurcharge : ℚ
  totalCharge : ℚ
deriving DecidableEq

/-- The post-commit shipping reconciliation of `POST /api/orders`
(src/unnamed/part_001, lines 552-604): overwrite `shipping` with the quoted
charge (falling back to the provisional flat rate) and recompute `total` in
the same write. -/
def reconcileShipping (o : Order) (quote : Option Quote) : Order :=
  let fallbackShipping : ℚ := if o.subtotal > 1000 then 0 else 50
  let shippingCharge : ℚ :=
    match quote with
    | some q => q.charge
    | none => fallbackShipping
  { o with shipping := shippingCharge, total := o.subtotal + o.tax + shippingCharge }

/-- Result of `PUT /api/orders/:id/cancel`: 403, 400 (carrying the offending
status), or the saved cancelled order. -/
inductive CancelResult where
  | denied : CancelResult
  | notCancelable : String → CancelResult
  | cancelled : Order → CancelResult
deriving DecidableEq

/-- The statuses a non-admin may not cancel from (src/unnamed/part_001,
lines 911-919). -/
def nonCancelableStatuses : List String :=
  ["in_transit", "out_for_delivery", "delivered", "return_in_transit",
   "returned", "cancelled", "rto_delivered"]

/-- `PUT /api/orders/:id/cancel` (src/unnamed/part_001, lines 891-968) on a
found order: ownership/role guard, the non-admin cancelability guard, then
the cancellation write. The best-effort carrier `cancelShipment` call is
external and its failure is swallowed; it does not touch local state beyond
the fields written below, so it is not modelled. -/
def cancelRoute (o : Order) (reqUserId : String) (isAdmin : Bool)
    (reqReason : Option String) (now : ℤ) : CancelResult :=
  if o.user ≠ reqUserId ∧ isAdmin = false then
    .denied
  else if isAdmin = false ∧ o.orderStatus ∈ nonCancelableStatuses then
    .notCancelable o.orderStatus
  else
    let o1 : Order :=
      { o with orderStatus := "cancelled",
               cancelledByUser := !isAdmin,
               cancelledAt := some now,
               cancelReason :=
                 jsStrOr ((jsStrTruthy reqReason).getD "")
                   (jsStrOr o.cancelReason
                     (if isAdmin then "Cancelled by admin" else "Cancelled by user")),
               shippingIntegrationStatus :=
                 o.shippingIntegrationStatus.map (fun _ => "cancelled") }
    if o1.paymentStatus = "completed" ∧ o1.paymentMethod ≠ "cod" then
      .cancelled { o1 with paymentStatus := "refunded" }
    else
      .cancelled o1

/-- The whole persistent state: the Product collection and the Order
collection (keyed by order id). -/
structure SysState where
  products : Store
  orders : List (String × Order)
deriving DecidableEq

/-- `PUT /api/orders/:id/cancel` at the persistence level: look the order up,
run the cancel handler, and save the (possibly) mutated order. The Product
collection is not referenced by the handler. -/
def cancelEndpoint (st : SysState) (orderId reqUserId : String) (isAdmin : Bool)
    (reqReason : Option String) (now : ℤ) : SysState × Option CancelResult :=
  match (st.orders.find? (fun pr => pr.1 == orderId)).map (fun pr => pr.2) with
  | none => (st, none)
  | some o =>
    match cancelRoute o reqUserId isAdmin reqReason now with
    | .cancelled o' =>
      ({ st with orders := st.orders.map (fun pr => if pr.1 == orderId then (pr.1, o') else pr) },
       some (.cancelled o'))
    | r => (st, some r)

/-- The fixed provider-status lookup table `STATUS_MAP`
(src/routes/users.js, lines 104-126). -/
def STATUS_MAP : List (String × String) :=
  [("new", "processing"),
   ("pending", "processing"),
   ("confirmed", "confirmed"),
   ("pickup scheduled", "pickup_scheduled"),
   ("pickup scheduled today", "pickup_scheduled"),
   ("pickup generated", "pickup_scheduled"),
   ("manifest", "pickup_scheduled"),
   ("shipped", "shipped"),
   ("transit", "in_transit"),
   ("in transit", "in_transit"),
   ("out for delivery", "out_for_delivery"),
   ("customer not available", "out_for_delivery"),
   ("delivered", "delivered"),
   ("cancelled", "cancelled"),
   ("rto initiated", "rto_initiated"),
   ("rto delivered", "rto_delivered"),
   ("return initiated", "return_initiated"),
   ("return pending", "return_initiated"),
   ("return picked up", "return_in_transit"),
   ("return in transit", "return_in_transit"),
   ("return delivered", "returned")]

/-- `ShiprocketService.normalizeStatus` (src/routes/users.js, lines 159-162):
trim, lowercase, look up; `STATUS_MAP[normalized] || null`. -/
def normalizeStatus (status : String) : Option String :=
  STATUS_MAP.lookup (jsToLower (jsTrim status))

/-- The `orderStatus` update of `ShiprocketService.fetchTracking`
(src/routes/users.js, lines 532-558):
`mappedStatus = normalizeStatus(latestStatus) || order.orderStatus`, then
`if (mappedStatus) order.orderStatus = mappedStatus`. The tracking-history
and `shippingIntegration` writes do not touch `orderStatus` or the pricing
fields and are omitted. -/
def applyTracking (o : Order) (latestStatus : String) : Order :=
  let mapped := (normalizeStatus latestStatus).getD o.orderStatus
  if mapped ≠ "" then { o with orderStatus := mapped } else o

/-- A carrier row of the serviceability response consumed by
`ShiprocketService.getRateQuote`. Absent JSON fields are `none`. -/
structure Courier where
  id : Option ℤ
  name : String
  estimatedDeliveryDays : Option ℚ
  etd : Option ℚ
  rate : Option ℚ
  freightCharge : Option ℚ
  codCharges : Option ℚ
  fuelSurcharge : Option ℚ
  totalAmount : Option ℚ
deriving DecidableEq

/-- JavaScript truthiness of `company?.courier_company_id` (0, null and
undefined are falsy). -/
def truthyId (x : Option ℤ) : Bool :=
  match x with
  | some n => n != 0
  | none => false

/-- `Number(a.estimated_delivery_days || a.etd || 99)`. -/
def courierDays (c : Courier) : ℚ :=
  jsNumOr c.estimatedDeliveryDays (jsNumOr c.etd 99)

/-- `(a.rate || a.freight_charge || 0)`: the tie-break key of the sort
comparator. -/
def courierRateKey (c : Courier) : ℚ :=
  jsNumOr c.rate (jsNumOr c.freightCharge 0)

/-- `a` strictly precedes `b` under the sort comparator of `getRateQuote`:
fewer estimated days, or equal days and a strictly lower rate key. -/
def courierBefore (a b : Courier) : Prop :=
  courierDays a < courierDays b ∨
    (courierDays a = courierDays b ∧ courierRateKey a < courierRateKey b)

instance (a b : Courier) : Decidable (courierBefore a b) :=
  inferInstanceAs (Decidable (courierDays a < courierDays b ∨
    (courierDays a = courierDays b ∧ courierRateKey a < courierRateKey b)))

/-- Stable insertion used to model `Array.prototype.sort` (stable per the
ECMAScript spec) with the comparator above: an element is placed after every
element it does not strictly precede. -/
def insertCourier (x : Courier) : List Courier → List Courier
  | [] => [x]
  | y :: ys => if courierBefore x y then x :: y :: ys else y :: insertCourier x ys

/-- The stable sort of the filtered carrier list. -/
def sortCouriers (l : List Courier) : List Courier :=
  l.foldl (fun acc x => insertCourier x acc) []

/-- The charge the adapter reports for the chosen carrier:
`Number(chosen.freight_charge || chosen.rate || 0) + Number(chosen.cod_charges || 0)
+ Number(chosen.fuel_surcharge || 0)`. -/
def computedCharge (c : Courier) : ℚ :=
  jsNumOr c.freightCharge (jsNumOr c.rate 0) + jsNumOr c.codCharges 0 +
    jsNumOr c.fuelSurcharge 0

/-- The quote object built from the chosen carrier (src/routes/users.js,
lines 265-291; the `etd` date is omitted). -/
def quoteOf (chosen : Courier) : Quote :=
  let freight := jsNumOr chosen.freightCharge (jsNumOr chosen.rate 0)
  let codCharge := jsNumOr chosen.codCharges 0
  let fuel := jsNumOr chosen.fuelSurcharge 0
  let charge := freight + codCharge + fuel
  { courierCompanyId := chosen.id, courierName := chosen.name,
    charge := charge, codCharge := codCharge, freightCharge := freight,
    fuelSurcharge := fuel, totalCharge := jsNumOr chosen.totalAmount charge }

/-- The carrier-selection core of `ShiprocketService.getRateQuote`
(src/routes/users.js, lines 248-292), given the provider's
`available_courier_companies` array: return `null` for an empty list,
otherwise filter to valid ids, stable-sort by (days, rate key), and take
`sorted[0] || companies[0]`. -/
def getRateQuote (companies : List Courier) : Option Quote :=
  match companies with
  | [] => none
  | c0 :: _ =>
    let sorted := sortCouriers (companies.filter (fun c => truthyId c.id))
    some (quoteOf (sorted.headD c0))

/-- Modelled from the spec: the carrier selection as the specification words
it - filter to carriers with a valid identifier, select the fewest estimated
delivery days, break ties by the lowest computed charge
(freight + COD surcharge + fuel surcharge). Defined only to compare against
`getRateQuote`, the selection the code performs. -/
def specQuoteSelection (companies : List Courier) : Option Courier :=
  (companies.filter (fun c => truthyId c.id)).foldl
    (fun best c =>
      match best with
      | none => some c
      | some b =>
        if courierDays c < courierDays b ∨
            (courierDays c = courierDays b ∧ computedCharge c < computedCharge b)
        then some c else best)
    none

/-- The provider token cache (`this.token`, `this.tokenExpiresAt`). -/
structure AuthState where
  token : Option String
  tokenExpiresAt : ℤ
deriving DecidableEq

/-- JavaScript truthiness of `this.token`. -/
def tokenTruthy (st : AuthState) : Bool :=
  match st.token with
  | some t => t != ""
  | none => false

/-- The login branch of `authenticate` (src/routes/users.js, lines 174-182):
`loginToken`/`loginExpiresIn` are the provider's response;
`tokenExpiresAt = now + (expires_in * 1000 || 10 * 60 * 1000)`. -/
def srLogin (now : ℤ) (loginToken : String) (loginExpiresIn : ℤ) :
    AuthState × String :=
  let expiresIn := loginExpiresIn * 1000
  ({ token := some loginToken,
     tokenExpiresAt := now + (if expiresIn = 0 then 600000 else expiresIn) },
   loginToken)

/-- `ShiprocketService.authenticate(force)` (src/routes/users.js, lines
164-183): reuse the cached token while `tokenExpiresAt > now + 60 * 1000`,
otherwise log in again. -/
def authenticate (force : Bool) (now : ℤ) (loginToken : String)
    (loginExpiresIn : ℤ) (st : AuthState) : AuthState × String :=
  if force = false ∧ tokenTruthy st = true ∧ now + 60000 < st.tokenExpiresAt then
    (st, st.token.getD "")
  else
    srLogin now loginToken loginExpiresIn

/-- `ShiprocketService.request(config)` (src/routes/users.js, lines 185-210)
with the `_retry`-bounded recursion unrolled: authenticate, call out; on a
401 response retry exactly once (re-running `authenticate()`, which is not
forced), otherwise propagate the error. `respond` maps the bearer token used
to the provider's answer (`error s` is a response with HTTP status `s`); the
returned list records the bearer token of each attempt. -/
def srRequest (now : ℤ) (loginToken : String) (loginExpiresIn : ℤ)
    (respond : String → Except ℤ String) (st : AuthState) :
    AuthState × List String × Except ℤ String :=
  let att1 := authenticate false now loginToken loginExpiresIn st
  match respond att1.2 with
  | .ok r => (att1.1, [att1.2], .ok r)
  | .error s =>
    if s = 401 then
      let att2 := authenticate false now loginToken loginExpiresIn att1.1
      match respond att2.2 with
      | .ok r => (att2.1, [att1.2, att2.2], .ok r)
      | .error s2 => (att2.1, [att1.2, att2.2], .error s2)
    else
      (att1.1, [att1.2], .error s)

/-- Addition modulo 2^32 (32-bit word addition). -/
def wadd (a b : ℕ) : ℕ := (a + b) % 4294967296

/-- Right rotation of a 32-bit word. -/
def rotr32 (n x : ℕ) : ℕ := (x / 2 ^ n + x % 2 ^ n * 2 ^ (32 - n)) % 4294967296

/-- Right shift. -/
def shr32 (n x : ℕ) : ℕ := x / 2 ^ n

/-- Bitwise complement within 32 bits. -/
def bnot32 (x : ℕ) : ℕ := 4294967295 - x

/-- SHA-256 Ch function. -/
def shaCh (x y z : ℕ) : ℕ := (x &&& y) ^^^ (bnot32 x &&& z)

/-- SHA-256 Maj function. -/
def shaMaj (x y z : ℕ) : ℕ := (x &&& y) ^^^ (x &&& z) ^^^ (y &&& z)

/-- SHA-256 big Sigma0. -/
def bigSigma0 (x : ℕ) : ℕ := rotr32 2 x ^^^ rotr32 13 x ^^^ rotr32 22 x

/-- SHA-256 big Sigma1. -/
def bigSigma1 (x : ℕ) : ℕ := rotr32 6 x ^^^ rotr32 11 x ^^^ rotr32 25 x

/-- SHA-256 small sigma0. -/
def smallSigma0 (x : ℕ) : ℕ := rotr32 7 x ^^^ rotr32 18 x ^^^ shr32 3 x

/-- SHA-256 small sigma1. -/
def smallSigma1 (x : ℕ) : ℕ := rotr32 17 x ^^^ rotr32 19 x ^^^ shr32 10 x

/-- The SHA-256 round constants. -/
def sha256K : List ℕ :=
  [1116352408, 1899447441, 3049323471, 3921009573, 961987163,
   1508970993, 2453635748, 2870763221, 3624381080, 310598401,
   607225278, 1426881987, 1925078388, 2162078206, 2614888103,
   3248222580, 3835390401, 4022224774, 264347078, 604807628,
   770255983, 1249150122, 1555081692, 1996064986, 2554220882,
   2821834349, 2952996808, 3210313671, 3336571891, 3584528711,
   113926993, 338241895, 666307205, 773529912, 1294757372,
   1396182291, 1695183700, 1986661051, 2177026350, 2456956037,
   2730485921, 2820302411, 3259730800, 3345764771, 3516065817,
   3600352804, 4094571909, 275423344, 430227734, 506948616,
   659060556, 883997877, 958139571, 1322822218, 1537002063,
   1747873779, 1955562222, 2024104815, 2227730452, 2361852424,
   2428436474, 2756734187, 3204031479, 3329325298]

/-- The SHA-256 initial hash value. -/
def sha256H0 : List ℕ :=
  [1779033703, 3144134277, 1013904242, 2773480762,
   1359893119, 2600822924, 528734635, 1541459225]

/-- The eight working registers of the compression function. -/
structure Sha256Regs where
  a : ℕ
  b : ℕ
  c : ℕ
  d : ℕ
  e : ℕ
  f : ℕ
  g : ℕ
  h : ℕ

/-- One SHA-256 compression round. -/
def sha256Round (st : Sha256Regs) (kt wt : ℕ) : Sha256Regs :=
  let t1 := wadd st.h (wadd (bigSigma1 st.e) (wadd (shaCh st.e st.f st.g) (wadd kt wt)))
  let t2 := wadd (bigSigma0 st.a) (shaMaj st.a st.b st.c)
  { a := wadd t1 t2, b := st.a, c := st.b, d := st.c,
    e := wadd st.d t1, f := st.e, g := st.f, h := st.g }

/-- One step of the message-schedule extension; the accumulator holds the
schedule words most recent first. -/
def schedExtend (ws : List ℕ) : List ℕ :=
  wadd (wadd (smallSigma1 (ws.getD 1 0)) (ws.getD 6 0))
       (wadd (smallSigma0 (ws.getD 14 0)) (ws.getD 15 0)) :: ws

/-- The 64-word message schedule of a 16-word block. -/
def msgSchedule (block : List ℕ) : List ℕ :=
  (schedExtend^[48] block.reverse).reverse

/-- Compression of one 512-bit block into the running hash (8 words). -/
def compressBlock (H : List ℕ) (block : List ℕ) : List ℕ :=
  let ws := msgSchedule block
  let init : Sha256Regs :=
    { a := H.getD 0 0, b := H.getD 1 0, c := H.getD 2 0, d := H.getD 3 0,
      e := H.getD 4 0, f := H.getD 5 0, g := H.getD 6 0, h := H.getD 7 0 }
  let fin := (sha256K.zip ws).foldl (fun st kw => sha256Round st kw.1 kw.2) init
  [wadd (H.getD 0 0) fin.a, wadd (H.getD 1 0) fin.b, wadd (H.getD 2 0) fin.c,
   wadd (H.getD 3 0) fin.d, wadd (H.getD 4 0) fin.e, wadd (H.getD 5 0) fin.f,
   wadd (H.getD 6 0) fin.g, wadd (H.getD 7 0) fin.h]

/-- Big-endian byte serialization of `x` into `n` bytes. -/
def toBytesBE (n : ℕ) (x : ℕ) : List ℕ :=
  (List.range n).map (fun i => x / 2 ^ (8 * (n - 1 - i)) % 256)

/-- SHA-256 padding of a byte message: `0x80`, zeros, 64-bit bit length. -/
def padMessage (msg : List ℕ) : List ℕ :=
  let len := msg.length
  let zeros := (120 - (len + 1) % 64) % 64
  msg ++ [128] ++ List.replicate zeros 0 ++ toBytesBE 8 (8 * len)

/-- Big-endian 32-bit words of a byte list (fuel-driven structural recursion). -/
def bytesToWords : ℕ → List ℕ → List ℕ
  | 0, _ => []
  | _, [] => []
  | fuel + 1, l =>
    (l.getD 0 0 * 16777216 + l.getD 1 0 * 65536 + l.getD 2 0 * 256 + l.getD 3 0) ::
      bytesToWords fuel (l.drop 4)

/-- 64-byte chunks of a byte list (fuel-driven structural recursion). -/
def chunks64 : ℕ → List ℕ → List (List ℕ)
  | 0, _ => []
  | _, [] => []
  | fuel + 1, l => l.take 64 :: chunks64 fuel (l.drop 64)

/-- SHA-256 of a byte message, as the eight 32-bit hash words. -/
def sha256Bytes (msg : List ℕ) : List ℕ :=
  let padded := padMessage msg
  (chunks64 (padded.length + 1) padded).foldl
    (fun H b => compressBlock H (bytesToWords (b.length + 1) b)) sha256H0

/-- Big-endian bytes of a word list. -/
def wordsToBytes (ws : List ℕ) : List ℕ := (ws.map (toBytesBE 4)).flatten

/-- Lowercase hex digit. -/
def hexDigitChar (n : ℕ) : Char := "0123456789abcdef".data.getD n '0'

/-- Lowercase hex of one 32-bit word. -/
def wordToHex (w : ℕ) : String :=
  String.mk ((List.range 8).map (fun i => hexDigitChar (w / 16 ^ (7 - i) % 16)))

/-- Lowercase hex of a digest. -/
def digestHex (ws : List ℕ) : String := String.join (ws.map wordToHex)

/-- Bytes of an ASCII string (the route's HMAC inputs are ASCII). -/
def strBytes (s : String) : List ℕ := s.data.map Char.toNat

/-- Node's `crypto.createHmac('sha256', key).update(text).digest('hex')`:
HMAC-SHA-256 (RFC 2104) over FIPS 180-4 SHA-256, hex-encoded. -/
def hmacSha256Hex (key msg : String) : String :=
  let keyBytes := strBytes key
  let k0 := if 64 < keyBytes.length then wordsToBytes (sha256Bytes keyBytes) else keyBytes
  let kPad := k0 ++ List.replicate (64 - k0.length) 0
  let ipad := kPad.map (fun b => b ^^^ 54)
  let opad := kPad.map (fun b => b ^^^ 92)
  let inner := sha256Bytes (ipad ++ strBytes msg)
  digestHex (sha256Bytes (opad ++ wordsToBytes inner))

/-- Result of `POST /api/orders/:id/verify`: 403, verified (200) with the
saved order, or failed (400) with the saved order. -/
inductive VerifyResult where
  | denied : VerifyResult
  | verified : Order → VerifyResult
  | failed : Order → VerifyResult
deriving DecidableEq

/-- `POST /api/orders/:id/verify` (src/unnamed/part_001, lines 639-678) on a
found order: ownership guard, recompute
`HMAC-SHA256(razorpayOrderId + '|' + razorpayPaymentId, RAZORPAY_KEY_SECRET)`
and compare with the supplied signature; on match mark the payment completed,
otherwise mark it failed. -/
def verifyPayment (o : Order) (reqUserId : String) (razorpayPaymentId : String)
    (razorpaySignature : String) (secret : String) : VerifyResult :=
  if o.user ≠ reqUserId then
    .denied
  else
    let text := o.razorpayOrderId ++ "|" ++ razorpayPaymentId
    let hash := hmacSha256Hex secret text
    if hash = razorpaySignature then
      .verified { o with
        paymentStatus := "completed", paymentMethod := "razorpay",
        razorpayPaymentId := razorpayPaymentId,
        razorpaySignature := razorpaySignature }
    else
      .failed { o with paymentStatus := "failed" }

instance {ε α : Type} [DecidableEq ε] [DecidableEq α] : DecidableEq (Except ε α) :=
  fun x y =>
    match x, y with
    | .error u, .error v =>
      if h : u = v then .isTrue (congrArg Except.error h)
      else .isFalse (fun hh => h (by injection hh))
    | .error _, .ok _ => .isFalse (fun hh => Except.noConfusion hh)
    | .ok _, .error _ => .isFalse (fun hh => Except.noConfusion hh)
    | .ok u, .ok v =>
      if h : u = v then .isTrue (congrArg Except.ok h)
      else .isFalse (fun hh => h (by injection hh))

/-- Every stock counter of the store - plain and per-size - is nonnegative. -/
def storeNonneg (store : Store) : Prop :=
  ∀ pr ∈ store, 0 ≤ pr.2.stock ∧ ∀ e ∈ pr.2.sizes, 0 ≤ e.stock

instance (store : Store) : Decidable (storeNonneg store) :=
  inferInstanceAs (Decidable (∀ pr ∈ store, 0 ≤ pr.2.stock ∧ ∀ e ∈ pr.2.sizes, 0 ≤ e.stock))

/-- The pricing equation of the Order invariant set. -/
def totalsInvariant (o : Order) : Prop :=
  o.total = o.subtotal + o.tax + o.shipping

instance (o : Order) : Decidable (totalsInvariant o) :=
  inferInstanceAs (Decidable (o.total = o.subtotal + o.tax + o.shipping))

/-- An operation left all four pricing fields untouched. -/
def samePricing (o o' : Order) : Prop :=
  o'.subtotal = o.subtotal ∧ o'.tax = o.tax ∧ o'.shipping = o.shipping ∧
    o'.total = o.total

instance (o o' : Order) : Decidable (samePricing o o') :=
  inferInstanceAs (Decidable (_ ∧ _ ∧ _ ∧ _))

/-- The payment status the verify handler stored, if it reached a verdict. -/
def verifyResultStatus (r : VerifyResult) : Option String :=
  match r with
  | .denied => none
  | .verified o => some o.paymentStatus
  | .failed o => some o.paymentStatus

/-- Did the cancel handler reach the successful write? -/
def cancelSucceeded (r : CancelResult) : Bool :=
  match r with
  | .cancelled _ => true
  | _ => false

/-- Fixture: a plain-stock product. -/
def sampleProductPlain : Product :=
  { name := "Tee", price := 500, stock := 5, sizes := [], inStock := true }

/-- Fixture: store holding the plain-stock product. -/
def sampleStore : Store := [("p1", sampleProductPlain)]

/-- Fixture: the happy-path cart of the specification scenario. -/
def sampleItems : List ItemReq := [{ product := "p1", size := none, quantity := 2 }]

/-- Fixture: a cheap product whose tax is not an integer. -/
def samplePin : Product :=
  { name := "Pin", price := 5, stock := 5, sizes := [], inStock := true }

/-- Fixture: store holding the cheap product. -/
def samplePinStore : Store := [("p9", samplePin)]

/-- Fixture: a size-variant product. -/
def sampleSized : Product :=
  { name := "Shirt", price := 500, stock := 5,
    sizes := [{ size := "M", stock := 5 }], inStock := true }

/-- Fixture: store holding the size-variant product. -/
def sampleSizedStore : Store := [("p2", sampleSized)]

/-- Fixture: a delivered, paid order. -/
def sampleOrder : Order :=
  { user := "u1", items := [], paymentMethod := "card",
    paymentStatus := "completed", orderStatus := "delivered",
    razorpayOrderId := "ord_1", razorpayPaymentId := "", razorpaySignature := "",
    subtotal := 1000, shipping := 50, tax := 180, total := 1230,
    cancelledByUser := false, cancelledAt := none, cancelReason := "",
    shippingIntegrationStatus := none, returnStatus := "none" }

/-- Fixture: the order an admin cancel of `sampleOrder` produces. -/
def sampleOrderAdminCancelled : Order :=
  { sampleOrder with
    orderStatus := "cancelled", cancelledByUser := false,
    cancelledAt := some 5, cancelReason := "Cancelled by admin",
    paymentStatus := "refunded" }

/-- Fixture: a rate quote. -/
def sampleQuote : Quote :=
  { courierCompanyId := some 7, courierName := "Speedy", charge := 80,
    codCharge := 10, freightCharge := 60, fuelSurcharge := 10, totalCharge := 80 }

/-- Fixture: a valid carrier with 2-day delivery, rate 10 but COD surcharge 100
(computed charge 110). -/
def courierRateA : Courier :=
  { id := some 1, name := "A", estimatedDeliveryDays := some 2, etd := none,
    rate := some 10, freightCharge := none, codCharges := some 100,
    fuelSurcharge := none, totalAmount := none }

/-- Fixture: a valid carrier with 2-day delivery, rate 20, no surcharges
(computed charge 20). -/
def courierRateB : Courier :=
  { id := some 2, name := "B", estimatedDeliveryDays := some 2, etd := none,
    rate := some 20, freightCharge := none, codCharges := none,
    fuelSurcharge := none, totalAmount := none }

/-- Fixture: a carrier without a valid courier id. -/
def courierNoId : Courier :=
  { id := none, name := "C", estimatedDeliveryDays := some 1, etd := none,
    rate := some 5, freightCharge := none, codCharges := none,
    fuelSurcharge := none, totalAmount := none }

/-- Fixture: `sampleSizedStore` after reserving two size-M shirts. -/
def sampleSizedStoreAfter : Store :=
  [("p2", { name := "Shirt", price := 500, stock := 3,
            sizes := [{ size := "M", stock := 3 }], inStock := true })]

/-- Fixture: the order the happy-path cart produces (quantity 2 at unit
price 500, cash on delivery). -/
def sampleCreatedOrder : Order :=
  { user := "u",
    items := [{ product := "p1", name := "Tee", size := none, quantity := 2, price := 500 }],
    paymentMethod := "cod", paymentStatus := "pending", orderStatus := "pending",
    razorpayOrderId := "", razorpayPaymentId := "", razorpaySignature := "",
    subtotal := 1000, shipping := 50, tax := 180, total := 1230,
    cancelledByUser := false, cancelledAt := none, cancelReason := "",
    shippingIntegrationStatus := none, returnStatus := "none" }

/-- Fixture: `sampleStore` after the happy-path reservation (5 - 2 = 3). -/
def sampleStoreAfter : Store :=
  [("p1", { name := "Tee", price := 500, stock := 3, sizes := [], inStock := true })]

/-- Fixture: the order a one-pin cart produces (subtotal 5, tax 0.9,
shipping 50, total 55.9). -/
def samplePinOrder : Order :=
  { user := "u",
    items := [{ product := "p9", name := "Pin", size := none, quantity := 1, price := 5 }],
    paymentMethod := "cod", paymentStatus := "pending", orderStatus := "pending",
    razorpayOrderId := "", razorpayPaymentId := "", razorpaySignature := "",
    subtotal := 5, shipping := 50, tax := 9 / 10, total := 559 / 10,
    cancelledByUser := false, cancelledAt := none, cancelReason := "",
    shippingIntegrationStatus := none, returnStatus := "none" }

/-- Fixture: `samplePinStore` after reserving one pin. -/
def samplePinStoreAfter : Store :=
  [("p9", { name := "Pin", price := 5, stock := 4, sizes := [], inStock := true })]

theorem jsStrOr_ne_empty (a b : String) (hb : b ≠ "") : jsStrOr a b ≠ "" := by
  unfold jsStrOr
  split
  · exact hb
  · assumption

theorem lookup_val_ne_empty {l : List (String × String)}
    (hl : ∀ p ∈ l, p.2 ≠ "") : ∀ {k v}, l.lookup k = some v → v ≠ "" := by
  induction l with
  | nil => intro k v h; simp [List.lookup] at h
  | cons p rest ih =>
    intro k v h
    obtain ⟨pk, pv⟩ := p
    rw [List.lookup] at h
    cases hk : k == pk
    · rw [hk] at h
      exact ih (fun q hq => hl q (List.mem_cons_of_mem _ hq)) h
    · rw [hk] at h
      have h' : some pv = some v := h
      injection h' with h''
      subst h''
      exact hl (pk, pv) (List.mem_cons_self _ _)

theorem STATUS_MAP_vals_ne_empty : ∀ p ∈ STATUS_MAP, p.2 ≠ "" := by decide

theorem normalizeStatus_ne_empty {s m : String} (h : normalizeStatus s = some m) :
    m ≠ "" :=
  lookup_val_ne_empty STATUS_MAP_vals_ne_empty h

/-- C7: tracking sync trims, lowercases and looks the provider status up in
the fixed `STATUS_MAP`; when no mapping exists (for example for
"weird_custom_code") `orderStatus` is left unchanged, and when a mapping
exists `orderStatus` is overwritten with the mapped canonical status. -/
theorem tracking_fail_open (o : Order) (s : String) :
    (normalizeStatus s = none → applyTracking o s = o) ∧
    (∀ m, normalizeStatus s = some m → (applyTracking o s).orderStatus = m) ∧
    normalizeStatus "weird_custom_code" = none := by
  refine ⟨?_, ?_, by decide⟩
  · intro h
    unfold applyTracking
    rw [h]
    by_cases ho : o.orderStatus = ""
    · simp [Option.getD, ho]
    · simp [Option.getD, ho]
  · intro m hm
    unfold applyTracking
    rw [hm]
    simp [Option.getD, normalizeStatus_ne_empty hm]

/-- Witness for C7: a delivered order stays delivered on the unmapped
provider status "weird_custom_code", and the provider status " Delivered "
(with stray spaces and case) maps onto the canonical status. -/
theorem tracking_fail_open_witness :
    applyTracking sampleOrder "weird_custom_code" = sampleOrder ∧
    (applyTracking sampleOrder " Delivered ").orderStatus = "delivered" :=
  ⟨(tracking_fail_open sampleOrder "weird_custom_code").1 (by decide),
   (tracking_fail_open sampleOrder " Delivered ").2.1 "delivered" (by decide)⟩

/-- C9 (code bug): with a cached token that still has far more than 60
seconds of validity, `authenticate()` returns the cached token; at 60
seconds or less it logs in again; but on a 401 response the single retry
re-runs the unforced `authenticate()`, so it reuses the SAME cached token
instead of a freshly obtained one (the code's own comment says "Retry once
with a fresh token"), and the error then propagates with no login having
happened. -/
theorem auth_retry_reuses_cached_token :
    authenticate false 0 "freshTok" 600
        { token := some "cachedTok", tokenExpiresAt := 100000 } =
      ({ token := some "cachedTok", tokenExpiresAt := 100000 }, "cachedTok") ∧
    authenticate false 0 "freshTok" 600
        { token := some "cachedTok", tokenExpiresAt := 60000 } =
      ({ token := some "freshTok", tokenExpiresAt := 600000 }, "freshTok") ∧
    srRequest 0 "freshTok" 600 (fun _ => .error 401)
        { token := some "cachedTok", tokenExpiresAt := 100000 } =
      ({ token := some "cachedTok", tokenExpiresAt := 100000 },
       ["cachedTok", "cachedTok"], .error 401) :=
  ⟨by decide, by decide, by decide⟩

/-- C10: the cancel endpoint never touches the Product collection - no stock
restoration happens on cancellation; only the Order document is written. -/
theorem cancel_keeps_products (st : SysState) (oid uid : String) (isAdmin : Bool)
    (reason : Option String) (now : ℤ) :
    (cancelEndpoint st oid uid isAdmin reason now).1.products = st.products ∧
    (∀ pid, lookupProduct (cancelEndpoint st oid uid isAdmin reason now).1.products pid =
      lookupProduct st.products pid) := by
  have h1 : (cancelEndpoint st oid uid isAdmin reason now).1.products = st.products := by
    unfold cancelEndpoint
    split
    · rfl
    · split <;> rfl
  exact ⟨h1, fun pid => by rw [h1]⟩

/-- C5: a non-admin owner's cancel is rejected (400, carrying the status)
whenever `orderStatus` is in the non-cancelable set; an admin's cancel
succeeds regardless of status; every successful cancel sets
`orderStatus = "cancelled"`, stamps `cancelledAt`, records `cancelledByUser`
(true exactly for a non-admin actor) and a non-empty cancel reason, and sets
`paymentStatus = "refunded"` exactly when the payment was completed and the
method is not cash on delivery. -/
theorem cancel_policy (o : Order) (uid : String) (isAdmin : Bool)
    (reason : Option String) (now : ℤ) :
    (isAdmin = false → o.user = uid → o.orderStatus ∈ nonCancelableStatuses →
      cancelRoute o uid isAdmin reason now = .notCancelable o.orderStatus) ∧
    (isAdmin = true → cancelSucceeded (cancelRoute o uid isAdmin reason now) = true) ∧
    (∀ o', cancelRoute o uid isAdmin reason now = .cancelled o' →
      o'.orderStatus = "cancelled" ∧ o'.cancelledAt = some now ∧
      o'.cancelledByUser = !isAdmin ∧ o'.cancelReason ≠ "" ∧
      o'.paymentStatus = (if o.paymentStatus = "completed" ∧ o.paymentMethod ≠ "cod"
        then "refunded" else o.paymentStatus)) := by
  refine ⟨?_, ?_, ?_⟩
  · intro ha ho hs
    unfold cancelRoute
    rw [if_neg (by simp [ho]), if_pos ⟨ha, hs⟩]
  · intro ha
    subst ha
    by_cases h3 : o.paymentStatus = "completed" ∧ o.paymentMethod ≠ "cod"
    · simp [cancelRoute, h3, cancelSucceeded]
    · simp [cancelRoute, h3, cancelSucceeded]
  · intro o' h
    have hreason : (if isAdmin = true then "Cancelled by admin"
        else "Cancelled by user") ≠ "" := by
      cases isAdmin <;> decide
    by_cases h1 : o.user ≠ uid ∧ isAdmin = false
    · simp [cancelRoute, h1] at h
    · by_cases h2 : isAdmin = false ∧ o.orderStatus ∈ nonCancelableStatuses
      · simp [cancelRoute, h1, h2] at h
        split at h <;> simp at h
      · by_cases h3 : o.paymentStatus = "completed" ∧ o.paymentMethod ≠ "cod"
        · simp [cancelRoute, h1, h2, h3] at h
          subst h
          refine ⟨rfl, rfl, rfl, ?_, ?_⟩
          · exact jsStrOr_ne_empty _ _ (jsStrOr_ne_empty _ _ hreason)
          · rw [if_pos h3]
        · simp [cancelRoute, h1, h2, h3] at h
          subst h
          refine ⟨rfl, rfl, rfl, ?_, ?_⟩
          · exact jsStrOr_ne_empty _ _ (jsStrOr_ne_empty _ _ hreason)
          · rw [if_neg h3]

/-- Witness for C5, the specification's cancellation-guard scenario: the
delivered `sampleOrder` cannot be cancelled by its (non-admin) owner, an
admin cancel succeeds, and the admin-cancelled order carries the required
cancellation fields with `paymentStatus` refunded. -/
theorem cancel_policy_witness :
    cancelRoute sampleOrder "u1" false none 5 = .notCancelable "delivered" ∧
    cancelSucceeded (cancelRoute sampleOrder "u1" true none 5) = true ∧
    (sampleOrderAdminCancelled.orderStatus = "cancelled" ∧
      sampleOrderAdminCancelled.cancelledAt = some 5 ∧
      sampleOrderAdminCancelled.cancelledByUser = !true ∧
      sampleOrderAdminCancelled.cancelReason ≠ "" ∧
      sampleOrderAdminCancelled.paymentStatus =
        (if sampleOrder.paymentStatus = "completed" ∧ sampleOrder.paymentMethod ≠ "cod"
          then "refunded" else sampleOrder.paymentStatus)) :=
  ⟨(cancel_policy sampleOrder "u1" false none 5).1 rfl rfl (by decide),
   (cancel_policy sampleOrder "u1" true none 5).2.1 rfl,
   (cancel_policy sampleOrder "u1" true none 5).2.2 sampleOrderAdminCancelled (by decide)⟩

/-- C4: for an owner's verification request, the stored payment status
becomes "completed" if and only if the supplied signature exactly equals the
recomputed HMAC-SHA256 over `razorpayOrderId|paymentId` keyed by the shared
secret, and it becomes "failed" if and only if the signature differs. -/
theorem verify_hmac_decision (o : Order) (uid pid sig secret : String)
    (hown : o.user = uid) :
    (verifyResultStatus (verifyPayment o uid pid sig secret) = some "completed" ↔
      sig = hmacSha256Hex secret (o.razorpayOrderId ++ "|" ++ pid)) ∧
    (verifyResultStatus (verifyPayment o uid pid sig secret) = some "failed" ↔
      sig ≠ hmacSha256Hex secret (o.razorpayOrderId ++ "|" ++ pid)) := by
  unfold verifyPayment
  rw [if_neg (by simp [hown])]
  by_cases h : hmacSha256Hex secret (o.razorpayOrderId ++ "|" ++ pid) = sig
  · rw [if_pos h]
    constructor
    · simp [verifyResultStatus, ← h]
    · simp [verifyResultStatus, ← h]
  · rw [if_neg h]
    constructor
    · constructor
      · intro hh
        exact absurd hh (by simp [verifyResultStatus])
      · intro hh
        exact absurd hh.symm h
    · constructor
      · intro _
        exact fun hh => h hh.symm
      · intro _
        simp [verifyResultStatus]

set_option maxRecDepth 1000000 in
/-- Witness for C4, the specification's payment-verification scenario: for
stored razorpayOrderId "ord_1", payment id "pay_1" and secret "s3cr3t", the
hex HMAC-SHA256 digest of "ord_1|pay_1" verifies (payment completed), and a
different signature marks the payment failed. -/
theorem verify_hmac_decision_witness :
    verifyResultStatus (verifyPayment sampleOrder "u1" "pay_1"
      "3ba5a7e85c128a6881d6e22f29e9fd642ad93b1fb86b6156e5dcdae983c3ad48" "s3cr3t") =
      some "completed" ∧
    verifyResultStatus (verifyPayment sampleOrder "u1" "pay_1" "deadbeef" "s3cr3t") =
      some "failed" :=
  ⟨(verify_hmac_decision sampleOrder "u1" "pay_1"
      "3ba5a7e85c128a6881d6e22f29e9fd642ad93b1fb86b6156e5dcdae983c3ad48" "s3cr3t"
      rfl).1.mpr (by decide),
   (verify_hmac_decision sampleOrder "u1" "pay_1" "deadbeef" "s3cr3t"
      rfl).2.mpr (by decide)⟩

theorem createOrderTx_ok_fields {store : Store} {uid : String} {items : List ItemReq}
    {pm : String} {gw : Except String String} {s' : Store} {o : Order}
    (h : createOrderTx store uid items pm gw = .ok (s', o)) :
    ∃ ois sub, processItems store items = .ok (s', ois, sub) ∧
      o.subtotal = sub ∧ o.tax = sub * (18 / 100) ∧
      o.shipping = (if sub > 1000 then (0 : ℚ) else 50) ∧
      o.total = sub + (if sub > 1000 then (0 : ℚ) else 50) + sub * (18 / 100) ∧
      o.items = ois := by
  unfold createOrderTx at h
  cases hp : processItems store items with
  | error e =>
    rw [hp] at h
    exact absurd h (by simp)
  | ok tr =>
    obtain ⟨s'', ois, sub⟩ := tr
    rw [hp] at h
    dsimp only at h
    split at h
    · cases gw with
      | ok rzpId =>
        simp only [Except.ok.injEq, Prod.mk.injEq] at h
        obtain ⟨hs, ho⟩ := h
        subst hs
        subst ho
        exact ⟨ois, sub, rfl, rfl, rfl, rfl, rfl, rfl⟩
      | error msg =>
        exact absurd h (by simp)
    · simp only [Except.ok.injEq, Prod.mk.injEq] at h
      obtain ⟨hs, ho⟩ := h
      subst hs
      subst ho
      exact ⟨ois, sub, rfl, rfl, rfl, rfl, rfl, rfl⟩

theorem sampleProcess_eval :
    processItems sampleStore sampleItems =
      .ok (sampleStoreAfter,
        [{ product := "p1", name := "Tee", size := none, quantity := 2, price := 500 }],
        1000) := by
  have h1 : processItem sampleStore { product := "p1", size := none, quantity := 2 } =
      .ok (sampleStoreAfter,
        { product := "p1", name := "Tee", size := none, quantity := 2, price := 500 }) := by
    decide
  simp only [sampleItems, processItems, h1]
  norm_num

theorem sampleCreate_eval :
    createOrderTx sampleStore "u" sampleItems "cod" (.ok "rz") =
      .ok (sampleStoreAfter, sampleCreatedOrder) := by
  unfold createOrderTx
  rw [sampleProcess_eval]
  norm_num [onlineMethods, sampleCreatedOrder, Order.mk.injEq]
  decide

theorem samplePinProcess_eval :
    processItems samplePinStore [{ product := "p9", size := none, quantity := 1 }] =
      .ok (samplePinStoreAfter,
        [{ product := "p9", name := "Pin", size := none, quantity := 1, price := 5 }],
        5) := by
  have h1 : processItem samplePinStore { product := "p9", size := none, quantity := 1 } =
      .ok (samplePinStoreAfter,
        { product := "p9", name := "Pin", size := none, quantity := 1, price := 5 }) := by
    decide
  simp only [processItems, h1]
  norm_num

theorem samplePinCreate_eval :
    createOrderTx samplePinStore "u" [{ product := "p9", size := none, quantity := 1 }]
      "cod" (.ok "rz") = .ok (samplePinStoreAfter, samplePinOrder) := by
  unfold createOrderTx
  rw [samplePinProcess_eval]
  norm_num [onlineMethods, samplePinOrder, Order.mk.injEq]
  decide

/-- C2: the equation `total = subtotal + tax + shipping` holds for every
order the creation transaction commits; the post-commit rate-quote
reconciliation overwrites `shipping` (with the quoted charge when a quote
arrived) and recomputes `total` in the same write, re-establishing the
equation while leaving `subtotal` and `tax` unchanged; and payment
verification, cancellation and tracking sync leave all four pricing fields
untouched. -/
theorem totals_invariant_lifecycle :
    (∀ store uid items pm gw s' o, createOrderTx store uid items pm gw = .ok (s', o) →
      totalsInvariant o) ∧
    (∀ o q, totalsInvariant (reconcileShipping o q) ∧
      (reconcileShipping o q).subtotal = o.subtotal ∧
      (reconcileShipping o q).tax = o.tax) ∧
    (∀ q, ∀ o : Order, (reconcileShipping o (some q)).shipping = q.charge) ∧
    (∀ o uid pid sig secret o',
      (verifyPayment o uid pid sig secret = .verified o' ∨
       verifyPayment o uid pid sig secret = .failed o') → samePricing o o') ∧
    (∀ o uid isAdmin reason now o',
      cancelRoute o uid isAdmin reason now = .cancelled o' → samePricing o o') ∧
    (∀ o s, samePricing o (applyTracking o s)) := by
  refine ⟨?_, ?_, ?_, ?_, ?_, ?_⟩
  · intro store uid items pm gw s' o h
    obtain ⟨ois, sub, _, h1, h2, h3, h4, _⟩ := createOrderTx_ok_fields h
    unfold totalsInvariant
    rw [h1, h2, h3, h4]
    ring
  · intro o q
    exact ⟨rfl, rfl, rfl⟩
  · intro q o
    rfl
  · intro o uid pid sig secret o' h
    rcases h with h | h <;> unfold verifyPayment at h <;> split at h
    · exact absurd h (by simp)
    · dsimp only at h
      split at h
      · simp only [VerifyResult.verified.injEq] at h
        subst h
        exact ⟨rfl, rfl, rfl, rfl⟩
      · exact absurd h (by simp)
    · exact absurd h (by simp)
    · dsimp only at h
      split at h
      · exact absurd h (by simp)
      · simp only [VerifyResult.failed.injEq] at h
        subst h
        exact ⟨rfl, rfl, rfl, rfl⟩
  · intro o uid isAdmin reason now o' h
    by_cases h1 : o.user ≠ uid ∧ isAdmin = false
    · simp [cancelRoute, h1] at h
    · by_cases h2 : isAdmin = false ∧ o.orderStatus ∈ nonCancelableStatuses
      · simp [cancelRoute, h1, h2] at h
        split at h <;> simp at h
      · by_cases h3 : o.paymentStatus = "completed" ∧ o.paymentMethod ≠ "cod"
        · simp [cancelRoute, h1, h2, h3] at h
          subst h
          exact ⟨rfl, rfl, rfl, rfl⟩
        · simp [cancelRoute, h1, h2, h3] at h
          subst h
          exact ⟨rfl, rfl, rfl, rfl⟩
  · intro o s
    unfold applyTracking
    cases hns : normalizeStatus s with
    | none =>
      by_cases ho : o.orderStatus = ""
      · simp [Option.getD, ho, samePricing]
      · simp [Option.getD, ho, samePricing]
    | some m =>
      by_cases hm : m = ""
      · simp [Option.getD, hm, samePricing]
      · simp [Option.getD, hm, samePricing]

/-- Witness for C2: the committed happy-path order satisfies the equation;
reconciliation with a concrete quote re-establishes it and stores the quoted
charge; an admin cancellation and a tracking update leave the pricing fields
of the sample order untouched. -/
theorem totals_invariant_lifecycle_witness :
    totalsInvariant sampleCreatedOrder ∧
    totalsInvariant (reconcileShipping sampleOrder (some sampleQuote)) ∧
    (reconcileShipping sampleOrder (some sampleQuote)).shipping = sampleQuote.charge ∧
    samePricing sampleOrder sampleOrderAdminCancelled ∧
    samePricing sampleOrder (applyTracking sampleOrder "shipped") :=
  ⟨totals_invariant_lifecycle.1 sampleStore "u" sampleItems "cod" (.ok "rz")
      sampleStoreAfter sampleCreatedOrder sampleCreate_eval,
   (totals_invariant_lifecycle.2.1 sampleOrder (some sampleQuote)).1,
   totals_invariant_lifecycle.2.2.1 sampleQuote sampleOrder,
   totals_invariant_lifecycle.2.2.2.2.1 sampleOrder "u1" true none 5
     sampleOrderAdminCancelled (by decide),
   totals_invariant_lifecycle.2.2.2.2.2 sampleOrder "shipped"⟩

/-- Counterexample for C3: on the cart with quantity 2 at unit price 500 the
code produces subtotal 1000, tax 180, shipping 50 and total 1230 - not the
claimed total of 1050; and tax is computed as exactly subtotal times 0.18
with no rounding (a 5-rupee cart gets tax 0.9, where rounding semantics
would give 1). -/
theorem pricing_happy_path_counterexample :
    (createOrderTx sampleStore "u" sampleItems "cod" (.ok "rz")).map
        (fun so => (so.2.subtotal, so.2.tax, so.2.shipping, so.2.total)) =
      .ok (1000, 180, 50, 1230) ∧
    (1230 : ℚ) ≠ 1050 ∧
    (createOrderTx samplePinStore "u" [{ product := "p9", size := none, quantity := 1 }]
        "cod" (.ok "rz")).map (fun so => so.2.tax) = .ok (9 / 10) ∧
    round ((9 : ℚ) / 10) = 1 ∧
    ((9 : ℚ) / 10) ≠ 1 := by
  refine ⟨?_, by norm_num, ?_, by norm_num [round_eq], by norm_num⟩
  · rw [sampleCreate_eval]
    norm_num [sampleCreatedOrder, Except.map]
  · rw [samplePinCreate_eval]
    norm_num [samplePinOrder, Except.map]

/-- C3 (amended): the pricing engine computes `tax = subtotal * 0.18`
exactly (no rounding), `shipping = 0` when `subtotal > 1000` and `50`
otherwise (so exactly 1000 pays 50), and `total = subtotal + shipping + tax`
- on the scenario cart: subtotal 1000, tax 180, shipping 50, total 1230. -/
theorem pricing_formula (store : Store) (uid : String) (items : List ItemReq)
    (pm : String) (gw : Except String String) (s' : Store) (o : Order)
    (h : createOrderTx store uid items pm gw = .ok (s', o)) :
    o.tax = o.subtotal * (18 / 100) ∧
    o.shipping = (if o.subtotal > 1000 then (0 : ℚ) else 50) ∧
    o.total = o.subtotal + o.shipping + o.tax := by
  obtain ⟨ois, sub, _, h1, h2, h3, h4, _⟩ := createOrderTx_ok_fields h
  rw [h1, h2, h3, h4]
  exact ⟨rfl, rfl, rfl⟩

/-- Witness for C3 (amended): the happy-path order carries subtotal 1000,
tax 180 = 1000 * 0.18, shipping 50 (1000 is not strictly above the free
threshold) and total 1230. -/
theorem pricing_formula_witness :
    (sampleCreatedOrder.tax = sampleCreatedOrder.subtotal * (18 / 100) ∧
      sampleCreatedOrder.shipping =
        (if sampleCreatedOrder.subtotal > 1000 then (0 : ℚ) else 50) ∧
      sampleCreatedOrder.total =
        sampleCreatedOrder.subtotal + sampleCreatedOrder.shipping + sampleCreatedOrder.tax) :=
  pricing_formula sampleStore "u" sampleItems "cod" (.ok "rz")
    sampleStoreAfter sampleCreatedOrder sampleCreate_eval

theorem mem_updateProduct {store : Store} {pid : String} {p : Product}
    {pr : String × Product} (h : pr ∈ updateProduct store pid p) :
    pr.2 = p ∨ pr ∈ store := by
  unfold updateProduct at h
  rcases List.mem_map.1 h with ⟨q, hq, hqe⟩
  by_cases hb : q.1 == pid
  · rw [if_pos hb] at hqe
    left
    rw [← hqe]
  · rw [if_neg hb] at hqe
    right
    rw [← hqe]
    exact hq

theorem storeNonneg_update {store : Store} {pid : String} {p : Product}
    (hs : storeNonneg store) (hp : 0 ≤ p.stock)
    (hsz : ∀ e ∈ p.sizes, 0 ≤ e.stock) :
    storeNonneg (updateProduct store pid p) := by
  intro pr hpr
  rcases mem_updateProduct hpr with h | h
  · rw [h]
    exact ⟨hp, hsz⟩
  · exact hs pr h

theorem decrementSize_nonneg {sizes : List SizeEntry} {label : String} {qty : ℤ}
    (h : ∀ e ∈ sizes, 0 ≤ e.stock) :
    ∀ e ∈ decrementSize sizes label qty, 0 ≤ e.stock := by
  induction sizes with
  | nil =>
    intro e he
    simp [decrementSize] at he
  | cons x rest ih =>
    intro e he
    rw [decrementSize] at he
    by_cases hb : (jsToLower x.size == jsToLower label) = true
    · rw [if_pos hb] at he
      rcases List.mem_cons.1 he with he | he
      · rw [he]
        exact le_max_left 0 _
      · exact h e (List.mem_cons_of_mem _ he)
    · rw [if_neg hb] at he
      rcases List.mem_cons.1 he with he | he
      · rw [he]
        exact h x (List.mem_cons_self _ _)
      · exact ih (fun e' he' => h e' (List.mem_cons_of_mem _ he')) e he

theorem lookupProduct_mem {store : Store} {pid : String} {p : Product}
    (h : lookupProduct store pid = some p) : ∃ pr ∈ store, pr.2 = p := by
  unfold lookupProduct at h
  cases hf : store.find? (fun pr => pr.1 == pid) with
  | none =>
    rw [hf] at h
    exact absurd h (by simp)
  | some pr =>
    rw [hf] at h
    have h' : some pr.2 = some p := h
    exact ⟨pr, List.mem_of_find?_eq_some hf, Option.some.inj h'⟩

theorem lookupProduct_cons_ne {pr : String × Product} {rest : Store} {pid : String}
    (hb : ¬(pr.1 == pid) = true) :
    lookupProduct (pr :: rest) pid = lookupProduct rest pid := by
  have hb' : (pr.1 == pid) = false := by simpa using hb
  unfold lookupProduct
  rw [List.find?]
  rw [hb']

theorem lookupProduct_update_self {store : Store} {pid : String} (p' : Product)
    (h : (lookupProduct store pid).isSome) :
    lookupProduct (updateProduct store pid p') pid = some p' := by
  induction store with
  | nil =>
    simp [lookupProduct, List.find?] at h
  | cons pr rest ih =>
    by_cases hb : (pr.1 == pid) = true
    · simp [lookupProduct, updateProduct, List.find?, hb]
    · have hmap : updateProduct (pr :: rest) pid p' = pr :: updateProduct rest pid p' := by
        unfold updateProduct
        simp only [List.map_cons]
        rw [if_neg hb]
      rw [hmap, lookupProduct_cons_ne hb]
      rw [lookupProduct_cons_ne hb] at h
      exact ih h

theorem findSize_decrementSize {sizes : List SizeEntry} {label : String}
    {entry : SizeEntry} (q : ℤ) (h : findSize sizes label = some entry) :
    findSize (decrementSize sizes label q) label =
      some { entry with stock := max 0 (entry.stock - q) } := by
  induction sizes with
  | nil =>
    simp [findSize, List.find?] at h
  | cons x rest ih =>
    by_cases hb : (jsToLower x.size == jsToLower label) = true
    · rw [findSize, List.find?] at h
      rw [hb] at h
      have h' : some x = some entry := h
      have hx : x = entry := Option.some.inj h'
      rw [decrementSize, if_pos hb, findSize, List.find?]
      have hb' : (jsToLower ({ x with stock := max 0 (x.stock - q) } : SizeEntry).size ==
          jsToLower label) = true := hb
      rw [hb']
      rw [hx]
    · have hb' : (jsToLower x.size == jsToLower label) = false := by
        simpa using hb
      rw [findSize, List.find?] at h
      rw [hb'] at h
      rw [decrementSize, if_neg hb, findSize, List.find?]
      rw [hb']
      exact ih h

theorem sizeStocksSum_shift (l : List SizeEntry) :
    ∀ init : ℤ, l.foldl (fun sum e => sum + e.stock) init =
      init + l.foldl (fun sum e => sum + e.stock) 0 := by
  induction l with
  | nil =>
    intro init
    simp
  | cons x rest ih =>
    intro init
    simp only [List.foldl]
    rw [ih (init + x.stock), ih (0 + x.stock)]
    ring

theorem sizeStocksSum_cons (x : SizeEntry) (rest : List SizeEntry) :
    sizeStocksSum (x :: rest) = x.stock + sizeStocksSum rest := by
  unfold sizeStocksSum
  simp only [List.foldl]
  rw [sizeStocksSum_shift rest (0 + x.stock)]
  ring

theorem sizeStocksSum_nonneg {sizes : List SizeEntry}
    (h : ∀ e ∈ sizes, 0 ≤ e.stock) : 0 ≤ sizeStocksSum sizes := by
  induction sizes with
  | nil => simp [sizeStocksSum]
  | cons x rest ih =>
    rw [sizeStocksSum_cons]
    have hx := h x (List.mem_cons_self _ _)
    have hr := ih (fun e he => h e (List.mem_cons_of_mem _ he))
    omega

theorem processItem_plain_insufficient {store : Store} {pid : String} {p : Product}
    {q : ℤ} (hpid : pid ≠ "") (hlk : lookupProduct store pid = some p)
    (hsz : p.sizes = []) (hq : 0 < q) (hst : p.stock < q) :
    processItem store { product := pid, size := none, quantity := q } =
      .error { message := p.name ++ " is out of stock", status := 409 } := by
  have hq' : ¬(q ≤ 0) := by omega
  simp [processItem, hpid, hlk, hq', jsStrTruthy, hsz, hst]

theorem processItem_plain_ok {store : Store} {pid : String} {p : Product} {q : ℤ}
    {store' : Store} {oi : OrderItem}
    (hlk : lookupProduct store pid = some p) (hsz : p.sizes = [])
    (h : processItem store { product := pid, size := none, quantity := q } =
      .ok (store', oi)) :
    0 < q ∧ q ≤ p.stock ∧
      (lookupProduct store' pid).map Product.stock = some (p.stock - q) := by
  by_cases hpid : pid = ""
  · simp [processItem, hpid] at h
  · by_cases hq : q ≤ 0
    · simp [processItem, hpid, hlk, hq] at h
    · by_cases hst : p.stock < q
      · simp [processItem, hpid, hlk, hq, jsStrTruthy, hsz, hst] at h
      · simp [processItem, hpid, hlk, hq, jsStrTruthy, hsz, hst, Prod.mk.injEq] at h
        obtain ⟨h1, -⟩ := h
        refine ⟨by omega, by omega, ?_⟩
        rw [← h1, lookupProduct_update_self _ (by rw [hlk]; rfl)]
        have hmx : max 0 (p.stock - q) = p.stock - q := by omega
        simp [hmx]

theorem processItem_size_missing {store : Store} {pid label : String} {p : Product}
    {q : ℤ} (hpid : pid ≠ "") (hlk : lookupProduct store pid = some p)
    (hlabel : label ≠ "") (hq : 0 < q) (hfs : findSize p.sizes label = none) :
    processItem store { product := pid, size := some label, quantity := q } =
      .error { message := "Size " ++ label ++ " not available for " ++ p.name,
               status := 400 } := by
  have hq' : ¬(q ≤ 0) := by omega
  simp [processItem, hpid, hlk, hq', jsStrTruthy, hlabel, hfs]

theorem processItem_size_insufficient {store : Store} {pid label : String}
    {p : Product} {entry : SizeEntry} {q : ℤ} (hpid : pid ≠ "")
    (hlk : lookupProduct store pid = some p) (hlabel : label ≠ "") (hq : 0 < q)
    (hfs : findSize p.sizes label = some entry) (hst : entry.stock < q) :
    processItem store { product := pid, size := some label, quantity := q } =
      .error { message := "Insufficient stock for " ++ p.name ++ " - size " ++ label,
               status := 409 } := by
  have hq' : ¬(q ≤ 0) := by omega
  simp [processItem, hpid, hlk, hq', jsStrTruthy, hlabel, hfs, hst]

theorem processItem_size_ok {store : Store} {pid label : String} {p : Product}
    {entry : SizeEntry} {q : ℤ} {store' : Store} {oi : OrderItem}
    (hlk : lookupProduct store pid = some p) (hlabel : label ≠ "")
    (hfs : findSize p.sizes label = some entry)
    (h : processItem store { product := pid, size := some label, quantity := q } =
      .ok (store', oi)) :
    0 < q ∧ q ≤ entry.stock ∧
      (lookupProduct store' pid).map (fun p' => findSize p'.sizes label) =
        some (some { size := entry.size, stock := entry.stock - q }) ∧
      (∀ p', lookupProduct store' pid = some p' →
        p'.stock = max 0 (sizeStocksSum p'.sizes) ∧
        p'.sizes = decrementSize p.sizes label q) := by
  by_cases hpid : pid = ""
  · simp [processItem, hpid] at h
  · by_cases hq : q ≤ 0
    · simp [processItem, hpid, hlk, hq] at h
    · by_cases hst : entry.stock < q
      · simp [processItem, hpid, hlk, hq, jsStrTruthy, hlabel, hfs, hst] at h
      · simp [processItem, hpid, hlk, hq, jsStrTruthy, hlabel, hfs, hst, Prod.mk.injEq] at h
        obtain ⟨h1, -⟩ := h
        refine ⟨by omega, by omega, ?_, ?_⟩
        · rw [← h1, lookupProduct_update_self _ (by rw [hlk]; rfl)]
          have hmx : max 0 (entry.stock - q) = entry.stock - q := by omega
          simp [findSize_decrementSize q hfs, hmx]
        · intro p' hp'
          rw [← h1, lookupProduct_update_self _ (by rw [hlk]; rfl)] at hp'
          have hp'' := Option.some.inj hp'
          rw [← hp'']
          exact ⟨rfl, rfl⟩

theorem processItem_nonneg {store : Store} {item : ItemReq} {store' : Store}
    {oi : OrderItem} (hs : storeNonneg store)
    (h : processItem store item = .ok (store', oi)) : storeNonneg store' := by
  by_cases hpid : item.product = ""
  · simp [processItem, hpid] at h
  · cases hlk : lookupProduct store item.product with
    | none => simp [processItem, hpid, hlk] at h
    | some product =>
      have hpn : 0 ≤ product.stock ∧ ∀ e ∈ product.sizes, 0 ≤ e.stock := by
        rcases lookupProduct_mem hlk with ⟨pr, hmem, hpr⟩
        rw [← hpr]
        exact hs pr hmem
      by_cases hq : item.quantity ≤ 0
      · simp [processItem, hpid, hlk, hq] at h
      · cases hjs : jsStrTruthy item.size with
        | some label =>
          cases hfs : findSize product.sizes label with
          | none => simp [processItem, hpid, hlk, hq, hjs, hfs] at h
          | some entry =>
            by_cases hst : entry.stock < item.quantity
            · simp [processItem, hpid, hlk, hq, hjs, hfs, hst] at h
            · simp [processItem, hpid, hlk, hq, hjs, hfs, hst, Prod.mk.injEq] at h
              obtain ⟨h1, -⟩ := h
              rw [← h1]
              exact storeNonneg_update hs (le_max_left 0 _)
                (decrementSize_nonneg hpn.2)
        | none =>
          by_cases hemp : product.sizes.isEmpty = true
          · by_cases hbs : product.stock < item.quantity
            · simp [processItem, hpid, hlk, hq, hjs, hemp, hbs] at h
            · simp [processItem, hpid, hlk, hq, hjs, hemp, hbs, Prod.mk.injEq] at h
              obtain ⟨h1, -⟩ := h
              rw [← h1]
              exact storeNonneg_update hs (le_max_left 0 _) hpn.2
          · by_cases hvar : sizeStocksSum product.sizes < item.quantity
            · simp [processItem, hpid, hlk, hq, hjs, hemp, hvar] at h
            · simp [processItem, hpid, hlk, hq, hjs, hemp, hvar, Prod.mk.injEq] at h
              obtain ⟨h1, -⟩ := h
              rw [← h1]
              exact storeNonneg_update hs (le_max_left 0 _) hpn.2

theorem processItems_nonneg {items : List ItemReq} :
    ∀ {store s' : Store} {ois : List OrderItem} {sub : ℚ}, storeNonneg store →
      processItems store items = .ok (s', ois, sub) → storeNonneg s' := by
  induction items with
  | nil =>
    intro store s' ois sub hs h
    unfold processItems at h
    simp only [Except.ok.injEq, Prod.mk.injEq] at h
    rw [← h.1]
    exact hs
  | cons it rest ih =>
    intro store s' ois sub hs h
    unfold processItems at h
    cases hp : processItem store it with
    | error e => simp [hp] at h
    | ok pr =>
      obtain ⟨store1, oi⟩ := pr
      rw [hp] at h
      simp only [] at h
      cases hq : processItems store1 rest with
      | error e => simp [hq] at h
      | ok tr =>
        obtain ⟨store2, ois2, sub2⟩ := tr
        rw [hq] at h
        simp only [Except.ok.injEq, Prod.mk.injEq] at h
        obtain ⟨h1, -, -⟩ := h
        rw [← h1]
        exact ih (processItem_nonneg hs hp) hq

theorem createOrderEndpoint_error_store {store : Store} {uid : String}
    {items : List ItemReq} {pm : String} {addr : Bool} {gw : Except String String} :
    ∀ e, (createOrderEndpoint store uid items pm addr gw).2 = .error e →
      (createOrderEndpoint store uid items pm addr gw).1 = store := by
  intro e he
  by_cases h1 : items.isEmpty = true
  · simp [createOrderEndpoint, h1]
  · by_cases h2 : (!addr) = true
    · simp [createOrderEndpoint, h1, h2]
    · cases htx : createOrderTx store uid items pm gw with
      | error e2 => simp [createOrderEndpoint, h1, h2, htx]
      | ok pr =>
        obtain ⟨s2, o2⟩ := pr
        simp [createOrderEndpoint, h1, h2, htx] at he

theorem createOrderEndpoint_nonneg {store : Store} {uid : String}
    {items : List ItemReq} {pm : String} {addr : Bool} {gw : Except String String}
    (hs : storeNonneg store) :
    storeNonneg (createOrderEndpoint store uid items pm addr gw).1 := by
  by_cases h1 : items.isEmpty = true
  · simpa [createOrderEndpoint, h1] using hs
  · by_cases h2 : (!addr) = true
    · simpa [createOrderEndpoint, h1, h2] using hs
    · cases htx : createOrderTx store uid items pm gw with
      | error e => simpa [createOrderEndpoint, h1, h2, htx] using hs
      | ok pr =>
        obtain ⟨s2, o2⟩ := pr
        obtain ⟨ois, sub, hp, -⟩ := createOrderTx_ok_fields htx
        simpa [createOrderEndpoint, h1, h2, htx] using processItems_nonneg hs hp

/-- C1: stock reservation is safe - starting from nonnegative stock, every
counter the order-creation endpoint leaves behind is nonnegative (no stock
counter ever becomes negative); any error aborts the transaction with the
store exactly as before (all partial decrements discarded); a plain or
per-size request whose quantity exceeds the available stock at the instant
of decrement throws InsufficientStock with HTTP status 409; and every
successful decrement reserves exactly the requested quantity out of a
sufficient counter (quantity at most the stock read at that instant, new
counter = old minus quantity). -/
theorem stock_reservation (store : Store) (uid : String) (items : List ItemReq)
    (pm : String) (addr : Bool) (gw : Except String String)
    (hnn : storeNonneg store) :
    storeNonneg (createOrderEndpoint store uid items pm addr gw).1 ∧
    (∀ e, (createOrderEndpoint store uid items pm addr gw).2 = .error e →
      (createOrderEndpoint store uid items pm addr gw).1 = store) ∧
    (∀ pid p q, pid ≠ "" → lookupProduct store pid = some p → p.sizes = [] →
      0 < q → p.stock < q →
      processItem store { product := pid, size := none, quantity := q } =
        .error { message := p.name ++ " is out of stock", status := 409 }) ∧
    (∀ pid label p entry q, pid ≠ "" → lookupProduct store pid = some p →
      label ≠ "" → findSize p.sizes label = some entry → 0 < q → entry.stock < q →
      processItem store { product := pid, size := some label, quantity := q } =
        .error { message := "Insufficient stock for " ++ p.name ++ " - size " ++ label,
                 status := 409 }) ∧
    (∀ pid p q store' oi, lookupProduct store pid = some p → p.sizes = [] →
      processItem store { product := pid, size := none, quantity := q } =
        .ok (store', oi) →
      0 < q ∧ q ≤ p.stock ∧
        (lookupProduct store' pid).map Product.stock = some (p.stock - q)) ∧
    (∀ pid label p entry q store' oi, lookupProduct store pid = some p →
      label ≠ "" → findSize p.sizes label = some entry →
      processItem store { product := pid, size := some label, quantity := q } =
        .ok (store', oi) →
      0 < q ∧ q ≤ entry.stock ∧
        (lookupProduct store' pid).map (fun p' => findSize p'.sizes label) =
          some (some { size := entry.size, stock := entry.stock - q })) := by
  refine ⟨createOrderEndpoint_nonneg hnn, createOrderEndpoint_error_store, ?_, ?_, ?_, ?_⟩
  · intro pid p q h1 h2 h3 h4 h5
    exact processItem_plain_insufficient h1 h2 h3 h4 h5
  · intro pid label p entry q h1 h2 h3 h4 h5 h6
    exact processItem_size_insufficient h1 h2 h3 h5 h4 h6
  · intro pid p q store' oi h1 h2 h3
    exact processItem_plain_ok h1 h2 h3
  · intro pid label p entry q store' oi h1 h2 h3 h4
    have hok := processItem_size_ok h1 h2 h3 h4
    exact ⟨hok.1, hok.2.1, hok.2.2.1⟩

/-- Witness for C1: on the sample store (5 in stock), the endpoint leaves
only nonnegative counters; ordering 9 fails with InsufficientStock 409;
ordering 2 succeeds and leaves exactly 3. -/
theorem stock_reservation_witness :
    storeNonneg (createOrderEndpoint sampleStore "u" sampleItems "cod" true (.ok "rz")).1 ∧
    processItem sampleStore { product := "p1", size := none, quantity := 9 } =
      .error { message := "Tee is out of stock", status := 409 } ∧
    (0 < (2 : ℤ) ∧ (2 : ℤ) ≤ sampleProductPlain.stock ∧
      (lookupProduct sampleStoreAfter "p1").map Product.stock =
        some (sampleProductPlain.stock - 2)) :=
  ⟨(stock_reservation sampleStore "u" sampleItems "cod" true (.ok "rz") (by decide)).1,
   (stock_reservation sampleStore "u" sampleItems "cod" true (.ok "rz")
      (by decide)).2.2.1 "p1" sampleProductPlain 9 (by decide) (by decide) rfl
      (by decide) (by decide),
   (stock_reservation sampleStore "u" sampleItems "cod" true (.ok "rz")
      (by decide)).2.2.2.2.1 "p1" sampleProductPlain 2 sampleStoreAfter
      { product := "p1", name := "Tee", size := none, quantity := 2, price := 500 }
      (by decide) rfl (by decide)⟩

/-- Counterexample for C6: a size label with no case-insensitive match makes
the reservation loop throw with HTTP status 400 (the route's
`error.statusCode = 400` for "Size ... not available"), not the 409 the
claim assigns to ItemUnavailable. -/
theorem size_missing_status_counterexample :
    processItem sampleSizedStore { product := "p2", size := some "L", quantity := 1 } =
      .error { message := "Size L not available for Shirt", status := 400 } ∧
    (400 : ℕ) ≠ 409 :=
  ⟨by decide, by decide⟩

/-- C6 (amended): for an item carrying a size label, a missing
case-insensitive size entry fails with ItemUnavailable, which the code maps
to HTTP 400 (not the 409 of the spec's error taxonomy); a matching entry
with stock below the requested quantity fails with InsufficientStock (409);
and on success the matched size entry is decremented by the quantity while
the product's aggregate stock is recomputed as the sum of all size stocks. -/
theorem size_item_rules (store : Store) (pid label : String) (p : Product) (q : ℤ)
    (hpid : pid ≠ "") (hlk : lookupProduct store pid = some p)
    (hlabel : label ≠ "") (hq : 0 < q) :
    (findSize p.sizes label = none →
      processItem store { product := pid, size := some label, quantity := q } =
        .error { message := "Size " ++ label ++ " not available for " ++ p.name,
                 status := 400 }) ∧
    (∀ entry, findSize p.sizes label = some entry → entry.stock < q →
      processItem store { product := pid, size := some label, quantity := q } =
        .error { message := "Insufficient stock for " ++ p.name ++ " - size " ++ label,
                 status := 409 }) ∧
    (∀ entry store' oi, findSize p.sizes label = some entry →
      (∀ e ∈ p.sizes, 0 ≤ e.stock) →
      processItem store { product := pid, size := some label, quantity := q } =
        .ok (store', oi) →
      (lookupProduct store' pid).map (fun p' => findSize p'.sizes label) =
        some (some { size := entry.size, stock := entry.stock - q }) ∧
      (∀ p', lookupProduct store' pid = some p' →
        p'.stock = sizeStocksSum p'.sizes)) := by
  refine ⟨?_, ?_, ?_⟩
  · intro hfs
    exact processItem_size_missing hpid hlk hlabel hq hfs
  · intro entry hfs hst
    exact processItem_size_insufficient hpid hlk hlabel hq hfs hst
  · intro entry store' oi hfs hnn h
    have hok := processItem_size_ok hlk hlabel hfs h
    refine ⟨hok.2.2.1, ?_⟩
    intro p' hp'
    have hfacts := hok.2.2.2 p' hp'
    have hnn' : ∀ e ∈ p'.sizes, 0 ≤ e.stock := by
      rw [hfacts.2]
      exact decrementSize_nonneg hnn
    have hsum := sizeStocksSum_nonneg hnn'
    rw [hfacts.1]
    omega

/-- Witness for C6: on the shirt with sizes [M: 5], the unknown label "XL"
fails with 400, nine size-m shirts fail with 409, and after buying two
size-m shirts the M entry holds 3 and the aggregate stock equals the sum of
the size stocks. -/
theorem size_item_rules_witness :
    processItem sampleSizedStore { product := "p2", size := some "XL", quantity := 1 } =
      .error { message := "Size XL not available for Shirt", status := 400 } ∧
    processItem sampleSizedStore { product := "p2", size := some "m", quantity := 9 } =
      .error { message := "Insufficient stock for Shirt - size m", status := 409 } ∧
    ((lookupProduct sampleSizedStoreAfter "p2").map (fun p' => findSize p'.sizes "m") =
        some (some { size := "M", stock := 3 }) ∧
      (∀ p', lookupProduct sampleSizedStoreAfter "p2" = some p' →
        p'.stock = sizeStocksSum p'.sizes)) :=
  ⟨(size_item_rules sampleSizedStore "p2" "XL" sampleSized 1 (by decide) (by decide)
      (by decide) (by decide)).1 (by decide),
   (size_item_rules sampleSizedStore "p2" "m" sampleSized 9 (by decide) (by decide)
      (by decide) (by decide)).2.1 { size := "M", stock := 5 } (by decide) (by decide),
   (size_item_rules sampleSizedStore "p2" "m" sampleSized 2 (by decide) (by decide)
      (by decide) (by decide)).2.2 { size := "M", stock := 5 } sampleSizedStoreAfter
      { product := "p2", name := "Shirt", size := some "m", quantity := 2, price := 500 }
      (by decide) (by decide) (by decide)⟩

theorem courierBefore_irrefl (a : Courier) : ¬courierBefore a a := by
  unfold courierBefore
  rintro (h | ⟨-, h⟩) <;> exact lt_irrefl _ h

theorem courierBefore_asymm {a b : Courier} (h : courierBefore a b) :
    ¬courierBefore b a := by
  unfold courierBefore at *
  intro h'
  rcases h with h | ⟨he, h2⟩ <;> rcases h' with h' | ⟨he', h2'⟩ <;> linarith

theorem courierBefore_trans {a b c : Courier} (h1 : courierBefore a b)
    (h2 : courierBefore b c) : courierBefore a c := by
  unfold courierBefore at *
  rcases h1 with h1 | ⟨he1, h1⟩ <;> rcases h2 with h2 | ⟨he2, h2⟩
  · left; linarith
  · left; linarith
  · left; linarith
  · right
    exact ⟨he1.trans he2, by linarith⟩

theorem mem_insertCourier {x z : Courier} {l : List Courier} :
    z ∈ insertCourier x l ↔ z = x ∨ z ∈ l := by
  induction l with
  | nil => simp [insertCourier]
  | cons y ys ih =>
    unfold insertCourier
    by_cases hb : courierBefore x y
    · rw [if_pos hb]
      simp [List.mem_cons]
    · rw [if_neg hb]
      simp only [List.mem_cons, ih]
      tauto

theorem mem_foldl_insertCourier {z : Courier} : ∀ (l acc : List Courier),
    z ∈ l.foldl (fun acc x => insertCourier x acc) acc ↔ z ∈ acc ∨ z ∈ l := by
  intro l
  induction l with
  | nil =>
    intro acc
    simp
  | cons x xs ih =>
    intro acc
    simp only [List.foldl]
    rw [ih (insertCourier x acc)]
    simp only [mem_insertCourier, List.mem_cons]
    tauto

theorem mem_sortCouriers {z : Courier} {l : List Courier} :
    z ∈ sortCouriers l ↔ z ∈ l := by
  unfold sortCouriers
  rw [mem_foldl_insertCourier]
  simp

theorem pairwise_insertCourier {x : Courier} {l : List Courier}
    (hl : l.Pairwise (fun a b => ¬courierBefore b a)) :
    (insertCourier x l).Pairwise (fun a b => ¬courierBefore b a) := by
  induction l with
  | nil => simp [insertCourier]
  | cons y ys ih =>
    rw [List.pairwise_cons] at hl
    obtain ⟨hy, hys⟩ := hl
    unfold insertCourier
    by_cases hb : courierBefore x y
    · rw [if_pos hb, List.pairwise_cons]
      constructor
      · intro z hz
        rcases List.mem_cons.1 hz with hz | hz
        · rw [hz]
          exact courierBefore_asymm hb
        · intro hzx
          exact hy z hz (courierBefore_trans hzx hb)
      · rw [List.pairwise_cons]
        exact ⟨hy, hys⟩
    · rw [if_neg hb, List.pairwise_cons]
      constructor
      · intro z hz
        rcases mem_insertCourier.1 hz with hz | hz
        · rw [hz]
          exact hb
        · exact hy z hz
      · exact ih hys

theorem pairwise_sortCouriers (l : List Courier) :
    (sortCouriers l).Pairwise (fun a b => ¬courierBefore b a) := by
  unfold sortCouriers
  suffices h : ∀ acc : List Courier, acc.Pairwise (fun a b => ¬courierBefore b a) →
      (l.foldl (fun acc x => insertCourier x acc) acc).Pairwise
        (fun a b => ¬courierBefore b a) by
    exact h [] (by simp)
  induction l with
  | nil =>
    intro acc hacc
    simpa using hacc
  | cons x xs ih =>
    intro acc hacc
    simp only [List.foldl]
    exact ih _ (pairwise_insertCourier hacc)

theorem sortCouriers_head_min {l : List Courier} {chosen : Courier}
    {t : List Courier} (h : sortCouriers l = chosen :: t) :
    ∀ c ∈ l, ¬courierBefore c chosen := by
  intro c hc
  have hmem : c ∈ sortCouriers l := mem_sortCouriers.2 hc
  rw [h] at hmem
  rcases List.mem_cons.1 hmem with hz | hz
  · rw [hz]
    exact courierBefore_irrefl chosen
  · have hp := pairwise_sortCouriers l
    rw [h, List.pairwise_cons] at hp
    exact hp.1 c hz

/-- C8 (amended): the rate-quote selection returns null exactly when the
provider reports no serviceable carrier at all; when at least one carrier
has a valid identifier, the quote is built from a carrier of the filtered
list that is minimal in the code's order - fewest estimated delivery days,
ties broken by the lowest `rate || freight_charge || 0` value (not by the
computed charge) - and the reported charge is freight + COD surcharge +
fuel surcharge of that carrier; when no carrier has a valid identifier the
first returned carrier is quoted instead of falling back to null; and a
null quote makes the caller fall back to the provisional flat rate. -/
theorem rate_quote_selection (companies : List Courier) :
    (getRateQuote companies = none ↔ companies = []) ∧
    (∀ c0 rest, companies = c0 :: rest →
      companies.filter (fun c => truthyId c.id) = [] →
      getRateQuote companies = some (quoteOf c0)) ∧
    (∀ chosen t,
      sortCouriers (companies.filter (fun c => truthyId c.id)) = chosen :: t →
      getRateQuote companies = some (quoteOf chosen) ∧
      chosen ∈ companies.filter (fun c => truthyId c.id) ∧
      (∀ c ∈ companies.filter (fun c => truthyId c.id), ¬courierBefore c chosen) ∧
      (quoteOf chosen).charge = jsNumOr chosen.freightCharge (jsNumOr chosen.rate 0) +
        jsNumOr chosen.codCharges 0 + jsNumOr chosen.fuelSurcharge 0) ∧
    (∀ o : Order, (reconcileShipping o none).shipping =
      (if o.subtotal > 1000 then (0 : ℚ) else 50)) := by
  refine ⟨?_, ?_, ?_, ?_⟩
  · constructor
    · intro h
      cases companies with
      | nil => rfl
      | cons c0 rest => simp [getRateQuote] at h
    · intro h
      rw [h]
      rfl
  · intro c0 rest hc hf
    rw [hc] at hf ⊢
    simp [getRateQuote, hf, sortCouriers, List.foldl]
  · intro chosen t hsort
    have hmemf : chosen ∈ companies.filter (fun c => truthyId c.id) := by
      have hm : chosen ∈ sortCouriers (companies.filter (fun c => truthyId c.id)) := by
        rw [hsort]
        exact List.mem_cons_self _ _
      exact mem_sortCouriers.1 hm
    cases companies with
    | nil => simp at hmemf
    | cons c0 rest =>
      refine ⟨?_, hmemf, sortCouriers_head_min hsort, rfl⟩
      simp only [getRateQuote]
      rw [hsort]
      rfl
  · intro o
    rfl

/-- Witness for C8: an empty carrier list yields null; a list whose only
carrier lacks a valid id still yields a quote built from that carrier; and
for two carriers with equal days the one with the lower rate key is chosen. -/
theorem rate_quote_selection_witness :
    getRateQuote [] = none ∧
    getRateQuote [courierNoId] = some (quoteOf courierNoId) ∧
    getRateQuote [courierRateA, courierRateB] = some (quoteOf courierRateA) :=
  ⟨(rate_quote_selection []).1.mpr rfl,
   (rate_quote_selection [courierNoId]).2.1 courierNoId [] rfl (by decide),
   ((rate_quote_selection [courierRateA, courierRateB]).2.2.1 courierRateA
      [courierRateB] (by decide)).1⟩

/-- Counterexample for C8: carriers A and B have equal estimated days; A has
rate 10 but computed charge 110 (COD surcharge 100), B has rate 20 and
computed charge 20. The code quotes carrier id 1 (A, lower rate), while the
claim's tie-break by lowest computed charge selects carrier id 2 (B).
Moreover a list whose only carrier has no valid identifier is still quoted
(from that carrier) rather than filtered down to null. -/
theorem rate_quote_tiebreak_counterexample :
    (getRateQuote [courierRateA, courierRateB]).map (fun q => q.courierCompanyId) =
      some (some 1) ∧
    (specQuoteSelection [courierRateA, courierRateB]).map (fun c => c.id) =
      some (some 2) ∧
    computedCharge courierRateA = 110 ∧
    computedCharge courierRateB = 20 ∧
    courierDays courierRateA = courierDays courierRateB ∧
    (getRateQuote [courierNoId]).map (fun q => q.courierCompanyId) = some none := by
  refine ⟨by decide, ?_, ?_, ?_, ?_, by decide⟩
  · norm_num [specQuoteSelection, computedCharge, courierDays, jsNumOr, truthyId,
      courierRateA, courierRateB, List.filter, List.foldl]
  · norm_num [computedCharge, jsNumOr, courierRateA]
  · norm_num [computedCharge, jsNumOr, courierRateB]
  · norm_num [courierDays, jsNumOr, courierRateA, courierRateB]

end OrderServer
